/-
Verification of the release-artifact upload utility in
`.github/scripts/upload_to_r2.py`.

The development shallowly embeds the script's logic:
pure helpers (`calculate_sha256` chunking, `get_content_type`, object-key
construction, timestamp formatting) become Lean functions; the stateful
interaction with the S3-compatible store is modelled by explicit fault
parameters and a trace of attempted client calls.
-/
import Mathlib

namespace UploadR2

/-! ## String helpers modelling Python primitives -/

/-- Model of `list`-level startsWith used to build the substring test. -/
def startsWithL : List Char → List Char → Bool
  | [], _ => true
  | _ :: _, [] => false
  | a :: as, b :: bs => a = b && startsWithL as bs

/-- Model of the Python `in` substring operator on character lists:
`occursIn pat l` is true when `pat` occurs contiguously inside `l`. -/
def occursIn (pat : List Char) : List Char → Bool
  | [] => pat.isEmpty
  | b :: bs => startsWithL pat (b :: bs) || occursIn pat bs

/-- Model of Python `pat in s` for strings (used at line 221 of the script:
`if 'macos' in platform_arch`). -/
def containsSubstr (pat s : String) : Bool :=
  occursIn pat.data s.data

/-- Model of Python `str.lower()` restricted to the ASCII range, applied
character by character (line 242: `Path(filename).suffix.lower()`). -/
def strLower (s : String) : String :=
  String.mk (s.data.map Char.toLower)

/-- Helper for `pathSuffix`: walks the reversed character list accumulating
the characters that follow the last dot.  Returns `none` when the name has
no dot, when the last dot is the final character, or when the last dot is
the first character — exactly the cases where CPython's
`pathlib.PurePath.suffix` returns the empty string. -/
def sfxAux : List Char → List Char → Option (List Char)
  | [], _ => none
  | c :: rest, acc =>
    if c = '.' then
      if acc.isEmpty || rest.isEmpty then none else some ('.' :: acc)
    else
      sfxAux rest (c :: acc)

/-- Model of CPython `pathlib.PurePath('name').suffix`: the substring from
the last dot to the end, or `""` when there is no proper extension
(`name.rfind('.')` must satisfy `0 < i < len(name) - 1`). -/
def pathSuffix (name : String) : String :=
  match sfxAux name.data.reverse [] with
  | none => ""
  | some cs => String.mk cs

/-- Model of `pathlib.PurePath(p).name` for POSIX-style paths: the component
after the last slash. -/
def baseName (p : String) : String :=
  (p.splitOn "/").getLastD ""

/-- Model of Python `str(b).lower()` on a `bool` (lines 109 and 113). -/
def pyBoolStr (b : Bool) : String :=
  if b then "true" else "false"

/-! ## Platform and architecture enumerations

`main` restricts `--platform` to `choices=['macos', 'windows']` and
`--arch` to `choices=['arm64', 'x64']` (lines 286-287), so a run that
reaches `upload_to_r2` always carries one of these values. -/

/-- Allowed `--platform` values. -/
inductive Platform where
  | macos
  | windows
deriving DecidableEq

/-- Allowed `--arch` values. -/
inductive Arch where
  | arm64
  | x64
deriving DecidableEq

/-- String form of a platform, as passed on the command line. -/
def Platform.toStr : Platform → String
  | .macos => "macos"
  | .windows => "windows"

/-- String form of an architecture, as passed on the command line. -/
def Arch.toStr : Arch → String
  | .arm64 => "arm64"
  | .x64 => "x64"

/-- Line 100: `platform_arch = f"{platform}-{arch}"`. -/
def platformArch (p : Platform) (a : Arch) : String :=
  p.toStr ++ "-" ++ a.toStr

/-! ## Timestamp model

The script stamps objects and the manifest with
`datetime.utcnow().isoformat() + 'Z'` (lines 107, 197, 204, 210).
`PyDatetime` models the naive UTC datetime returned by
`datetime.utcnow()`, including its microsecond field, and `isoformat`
models CPython's `datetime.isoformat()` output format:
`YYYY-MM-DDTHH:MM:SS` followed by `.ffffff` exactly when the microsecond
field is nonzero. -/

/-- Fields of the value returned by `datetime.utcnow()`. -/
structure PyDatetime where
  year : Nat
  month : Nat
  day : Nat
  hour : Nat
  minute : Nat
  second : Nat
  microsecond : Nat
deriving DecidableEq

/-- Decimal digit character for `d % 10`. -/
def digitChar (d : Nat) : Char :=
  Char.ofNat (48 + d % 10)

/-- Two-digit zero-padded decimal field (`%02d`). -/
def pad2 (n : Nat) : String :=
  String.mk [digitChar (n / 10), digitChar n]

/-- Four-digit zero-padded decimal field (`%04d`, for years `1..9999`). -/
def pad4 (n : Nat) : String :=
  String.mk [digitChar (n / 1000), digitChar (n / 100), digitChar (n / 10), digitChar n]

/-- Six-digit zero-padded decimal field (`%06d`, for microseconds). -/
def pad6 (n : Nat) : String :=
  String.mk [digitChar (n / 100000), digitChar (n / 10000), digitChar (n / 1000),
    digitChar (n / 100), digitChar (n / 10), digitChar n]

/-- Model of CPython `datetime.isoformat()` on a naive datetime: omits the
`.ffffff` part exactly when `microsecond == 0`. -/
def isoformat (dt : PyDatetime) : String :=
  pad4 dt.year ++ "-" ++ pad2 dt.month ++ "-" ++ pad2 dt.day ++ "T" ++
    pad2 dt.hour ++ ":" ++ pad2 dt.minute ++ ":" ++ pad2 dt.second ++
    (if dt.microsecond = 0 then "" else "." ++ pad6 dt.microsecond)

/-- The timestamp string the script attaches:
`datetime.utcnow().isoformat() + 'Z'`. -/
def buildDate (dt : PyDatetime) : String :=
  isoformat dt ++ "Z"

/-! ## Content type resolution (`get_content_type`, lines 240-251) -/

/-- First-match lookup in an association list with string keys, modelling a
Python `dict.get` (the dicts in question have no duplicate keys). -/
def assocGet {β : Type} : List (String × β) → String → Option β
  | [], _ => none
  | (k', v) :: rest, k => if k' = k then some v else assocGet rest k

/-- The `content_types` table of `get_content_type` (lines 243-250). -/
def content_types : List (String × String) :=
  [(".dmg", "application/x-apple-diskimage"),
   (".exe", "application/x-msdownload"),
   (".msi", "application/x-msi"),
   (".zip", "application/zip"),
   (".tar.gz", "application/gzip"),
   (".json", "application/json")]

/-- Lines 240-251: `ext = Path(filename).suffix.lower()` then
`content_types.get(ext, 'application/octet-stream')`. -/
def get_content_type (filename : String) : String :=
  let ext := strLower (pathSuffix filename)
  (assocGet content_types ext).getD "application/octet-stream"

/-! ## Object keys (lines 121-127) -/

/-- Line 123: `f"releases/v{version}/{platform_arch}/{filename}"`. -/
def versionedKey (version platform_arch filename : String) : String :=
  "releases/v" ++ version ++ "/" ++ platform_arch ++ "/" ++ filename

/-- Line 126: `f"Ami-latest-{platform_arch}{file_path_obj.suffix}"`. -/
def latestFilename (platform_arch filename : String) : String :=
  "Ami-latest-" ++ platform_arch ++ pathSuffix filename

/-- Line 127: `f"releases/latest/{platform_arch}/{latest_filename}"`. -/
def latestKey (platform_arch filename : String) : String :=
  "releases/latest/" ++ platform_arch ++ "/" ++ latestFilename platform_arch filename

/-! ## Content hashing (`calculate_sha256`, lines 30-36)

The script folds `hashlib.sha256()` state over the file's bytes read in
4096-byte chunks via `iter(lambda: f.read(4096), b"")`.  The hash itself
is an external library; `HashSpec` captures the documented `hashlib`
interface contract — `m.update(a); m.update(b)` is equivalent to
`m.update(a + b)`, and `m.update(b"")` is a no-op — over an abstract
state type, so the chunking refinement can be proved for every such
implementation. -/

/-- Abstract incremental-hash interface of `hashlib` objects. -/
structure HashSpec (σ : Type) where
  init : σ
  upd : σ → List Nat → σ
  hexdigest : σ → String
  upd_append : ∀ s a b, upd s (a ++ b) = upd (upd s a) b
  upd_nil : ∀ s, upd s [] = s

/-- Splits a byte list into consecutive chunks of `n` bytes (the last chunk
may be shorter), modelling `iter(lambda: f.read(n), b"")` on a regular
file. -/
def chunks (n : Nat) (l : List Nat) : List (List Nat) :=
  if h : l = [] ∨ n = 0 then []
  else
    have : l.length - n < l.length := by
      rcases l with _ | ⟨x, xs⟩
      · simp at h
      · have hn : n ≠ 0 := by
          intro hn0
          exact h (Or.inr hn0)
        have : 0 < n := Nat.pos_of_ne_zero hn
        simp [Nat.sub_lt, this]
    chunks n (l.drop n) |>.cons (l.take n)
termination_by l.length
decreasing_by simpa using this

/-- Lines 30-36: stream the file content in 4096-byte chunks, feeding each
chunk to the hash state, then hex-encode the final state. -/
def calculate_sha256 {σ : Type} (H : HashSpec σ) (content : List Nat) : String :=
  H.hexdigest ((chunks 4096 content).foldl H.upd H.init)

/-- One-shot hash of the whole byte sequence, the specification-level view
the streaming code must refine. -/
def hashWhole {σ : Type} (H : HashSpec σ) (content : List Nat) : String :=
  H.hexdigest (H.upd H.init content)

/-! ## JSON values and the manifest merge (`update_metadata_json`, lines 181-237)

`Json` is the image of `json.loads`; objects are association lists in
insertion order (CPython dicts preserve insertion order, and item
assignment replaces in place or appends).  The partial dict operations of
the script — `metadata["version"] = ...`, `metadata["downloads"]`,
`metadata["downloads"][platform_arch] = ...` — raise `TypeError`/`KeyError`
on values of the wrong shape; `setKey`/`getKey` return `none` there, and
the merge function propagates that as a `crash` outcome (the exception
escapes `update_metadata_json` into the caller's `except` block). -/

/-- Shallow JSON value tree. -/
inductive Json where
  | null : Json
  | bool : Bool → Json
  | num : Nat → Json
  | str : String → Json
  | arr : List Json → Json
  | obj : List (String × Json) → Json

/-- Python dict item assignment on an association list: replaces the value
at the first occurrence of the key, else appends the pair. -/
def assocSet (l : List (String × Json)) (k : String) (v : Json) : List (String × Json) :=
  match l with
  | [] => [(k, v)]
  | (k', v') :: rest => if k' = k then (k', v) :: rest else (k', v') :: assocSet rest k v

/-- Python `d[k] = v`: succeeds only on dicts (`TypeError` otherwise). -/
def Json.setKey : Json → String → Json → Option Json
  | .obj kvs, k, v => some (.obj (assocSet kvs k v))
  | _, _, _ => none

/-- Python `d[k]` read: `KeyError` when absent, `TypeError` on non-dicts. -/
def Json.getKey : Json → String → Option Json
  | .obj kvs, k => assocGet kvs k
  | _, _ => none

/-- Outcome of `get_object` on `metadata/latest.json` followed by
`json.loads`, as the script's two `except` arms distinguish them:
`noSuchKey` (line 193), any other fetch exception (line 200), a
`json.loads` failure (also caught at line 200), or a parsed JSON value. -/
inductive FetchOutcome where
  | noSuchKey : FetchOutcome
  | fetchFailed : FetchOutcome
  | parseFailed : FetchOutcome
  | parsed : Json → FetchOutcome

/-- Result of `update_metadata_json`: `done m written` when the function
returns normally with final manifest document `m` (`written` is false when
the `put_object` raised and was logged as a warning, lines 236-237);
`crash` when an uncaught exception escapes the function. -/
inductive UpdateResult where
  | done : Json → Bool → UpdateResult
  | crash : UpdateResult

/-- Lines 195-206: the fresh manifest shell used when the prior manifest is
absent or unreadable. -/
def freshShell (version : String) (dtShell : PyDatetime) : Json :=
  .obj [("version", .str version), ("release_date", .str (buildDate dtShell)),
        ("downloads", .obj [])]

/-- Lines 214-222: the per-platform entry, with `notarized` added exactly
when `'macos' in platform_arch`. -/
def downloadEntry (endpoint bucket latest_key : String) (file_size : Nat)
    (file_hash : String) (signed notarized : Bool) (platform_arch : String) : Json :=
  .obj ([("url", .str (endpoint ++ "/" ++ bucket ++ "/" ++ latest_key)),
         ("size", .num file_size),
         ("sha256", .str file_hash),
         ("signed", .bool signed)] ++
        (if containsSubstr "macos" platform_arch then [("notarized", .bool notarized)] else []))

/-- Lines 181-237: fetch-merge-store of `metadata/latest.json`.
`fetch` is the outcome of the fetch+parse step; `dtShell` and `dtUpd`
stand for the two `datetime.utcnow()` calls (fresh-shell creation and the
unconditional overwrite at line 210); `putFails` injects a `put_object`
failure.  The dict operations that can raise on a wrongly-shaped parsed
body surface as `UpdateResult.crash`. -/
def update_metadata_json (fetch : FetchOutcome) (endpoint bucket version platform_arch
    latest_key : String) (file_size : Nat) (file_hash : String) (signed notarized : Bool)
    (dtShell dtUpd : PyDatetime) (putFails : Bool) : UpdateResult :=
  let metadata0 : Json :=
    match fetch with
    | .parsed j => j
    | _ => freshShell version dtShell
  match metadata0.setKey "version" (.str version) with
  | none => .crash
  | some m1 =>
    match m1.setKey "release_date" (.str (buildDate dtUpd)) with
    | none => .crash
    | some m2 =>
      match m2.getKey "downloads" with
      | none => .crash
      | some dl =>
        match dl.setKey platform_arch
            (downloadEntry endpoint bucket latest_key file_size file_hash
              signed notarized platform_arch) with
        | none => .crash
        | some dl' =>
          match m2.setKey "downloads" dl' with
          | none => .crash
          | some m3 => .done m3 (!putFails)

/-! ## The `upload_to_r2` flow (lines 39-178) and `main` (lines 254-304)

The S3 client is external; the embedding records every attempted client
call in order and takes the outcome of each fallible step as an input
(`Faults`).  `World` carries the environment configuration, the facts
about the file on disk, and the three `datetime.utcnow()` instants the
run observes. -/

/-- The four environment variables read at lines 64-67; `none` models an
unset variable. -/
structure EnvCfg where
  access_key : Option String
  secret_key : Option String
  endpoint : Option String
  bucket : Option String

/-- Python truthiness of `os.environ.get(...)` results as tested by
`all([...])` at line 69: `None` and the empty string are falsy. -/
def truthy : Option String → Bool
  | none => false
  | some s => !(s = "")

/-- Command-line inputs of one invocation (`--platform` and `--arch` are
restricted by argparse `choices`). -/
structure Args where
  file_path : String
  version : String
  platform : Platform
  arch : Arch
  signed : Bool
  notarized : Bool
  commit_sha : Option String

/-- Facts about the world a run observes: environment, the file's
existence, size, content digest, and the three `utcnow()` instants
(line 107 metadata stamp, lines 197/204 shell stamp, line 210 overwrite
stamp). -/
structure World where
  env : EnvCfg
  fileExists : Bool
  fileSize : Nat
  fileHash : String
  dtMeta : PyDatetime
  dtShell : PyDatetime
  dtUpd : PyDatetime

/-- Injected outcomes of the fallible storage-client steps. -/
structure Faults where
  uploadVersionedFails : Bool
  uploadLatestFails : Bool
  fetch : FetchOutcome
  putManifestFails : Bool

/-- One attempted storage-client call, in order of attempt. -/
inductive S3Call where
  | uploadFile : String → String → List (String × String) → S3Call
  | getObject : String → S3Call
  | putObject : String → S3Call
deriving DecidableEq

/-- Observable outcome of `upload_to_r2`: the returned boolean, whether the
S3 client was constructed (line 90), and the trace of attempted client
calls. -/
structure RunResult where
  success : Bool
  clientConstructed : Bool
  calls : List S3Call
deriving DecidableEq

/-- The fixed key of the shared manifest (line 187). -/
def metadataKey : String := "metadata/latest.json"

/-- Lines 103-116: the metadata dict attached to both uploads. -/
def objectMetadata (a : Args) (w : World) : List (String × String) :=
  [("version", a.version), ("platform", a.platform.toStr), ("arch", a.arch.toStr),
   ("build-date", buildDate w.dtMeta), ("sha256", w.fileHash),
   ("signed", pyBoolStr a.signed)] ++
  (if a.platform = .macos then [("notarized", pyBoolStr a.notarized)] else []) ++
  (match a.commit_sha with
   | some sha => [("commit-sha", sha)]
   | none => [])

/-- Lines 39-178: validate environment and file, construct the client,
upload to the versioned and latest keys, then run the manifest update
inside the same `try` (so an exception escaping `update_metadata_json`
lands in the `except` arm at line 174 and the function returns `False`).
Fallible steps take their outcomes from `f : Faults`. -/
def upload_to_r2 (w : World) (a : Args) (f : Faults) : RunResult :=
  if !(truthy w.env.access_key && truthy w.env.secret_key &&
       truthy w.env.endpoint && truthy w.env.bucket) then
    ⟨false, false, []⟩
  else if !w.fileExists then
    ⟨false, false, []⟩
  else
    let endpoint := w.env.endpoint.getD ""
    let bucket := w.env.bucket.getD ""
    let pa := platformArch a.platform a.arch
    let filename := baseName a.file_path
    let ctype := get_content_type filename
    let meta := objectMetadata a w
    let vKey := versionedKey a.version pa filename
    let lKey := latestKey pa filename
    let c1 := S3Call.uploadFile vKey ctype meta
    if f.uploadVersionedFails then
      ⟨false, true, [c1]⟩
    else
      let c2 := S3Call.uploadFile lKey ctype meta
      if f.uploadLatestFails then
        ⟨false, true, [c1, c2]⟩
      else
        match update_metadata_json f.fetch endpoint bucket a.version pa lKey
            w.fileSize w.fileHash a.signed a.notarized w.dtShell w.dtUpd
            f.putManifestFails with
        | .crash => ⟨false, true, [c1, c2, .getObject metadataKey]⟩
        | .done _ _ =>
          ⟨true, true, [c1, c2, .getObject metadataKey, .putObject metadataKey]⟩

/-- Line 304: `sys.exit(0 if success else 1)`. -/
def exitCode (r : RunResult) : Nat :=
  if r.success then 0 else 1

/-- Well-shaped fetch outcome: when the fetched body parses as JSON, it is
an object carrying an object under `"downloads"` — the shape on which the
merge's dict operations cannot raise. -/
def shapeOk : FetchOutcome → Prop
  | .parsed j => ∃ kvs dl, j = .obj kvs ∧ assocGet kvs "downloads" = some (.obj dl)
  | _ => True

/-! ## Helper lemmas -/

theorem assocGet_assocSet_self {l : List (String × Json)} {k : String} {v : Json} :
    assocGet (assocSet l k v) k = some v := by
  induction l with
  | nil => simp [assocSet, assocGet]
  | cons hd tl ih =>
    obtain ⟨k', v'⟩ := hd
    by_cases hk : k' = k
    · simp [assocSet, hk, assocGet]
    · simp [assocSet, hk, assocGet, ih]

theorem assocGet_assocSet_ne {l : List (String × Json)} {k k' : String} {v : Json}
    (h : k' ≠ k) : assocGet (assocSet l k v) k' = assocGet l k' := by
  have h' : ¬k = k' := fun hh => h (Eq.symm hh)
  induction l with
  | nil => simp [assocSet, assocGet, h']
  | cons hd tl ih =>
    obtain ⟨k₀, v₀⟩ := hd
    by_cases hk : k₀ = k
    · subst hk
      simp [assocSet, assocGet, h']
    · simp [assocSet, hk, assocGet, ih]

theorem assocGet_eq_none {β : Type} {l : List (String × β)} {k : String}
    (h : k ∉ l.map Prod.fst) : assocGet l k = none := by
  induction l with
  | nil => rfl
  | cons hd tl ih =>
    obtain ⟨k', v⟩ := hd
    simp only [List.map_cons, List.mem_cons] at h
    push_neg at h
    have h' : ¬k' = k := fun hh => h.1 (Eq.symm hh)
    simp [assocGet, h', ih h.2]

theorem containsSubstr_macos_platformArch (p : Platform) (a : Arch) :
    containsSubstr "macos" (platformArch p a) = decide (p = Platform.macos) := by
  cases p <;> cases a <;> decide

/-- When the prior manifest is absent, unfetchable or unparsable, the merge
runs on the fresh shell and returns it with the current entry only. -/
theorem update_metadata_json_fresh (fetch : FetchOutcome)
    (hf : fetch = .noSuchKey ∨ fetch = .fetchFailed ∨ fetch = .parseFailed)
    (endpoint bucket version platform_arch latest_key : String) (file_size : Nat)
    (file_hash : String) (signed notarized : Bool) (dtShell dtUpd : PyDatetime)
    (putFails : Bool) :
    update_metadata_json fetch endpoint bucket version platform_arch latest_key
      file_size file_hash signed notarized dtShell dtUpd putFails =
    .done (.obj [("version", .str version), ("release_date", .str (buildDate dtUpd)),
      ("downloads", .obj [(platform_arch, downloadEntry endpoint bucket latest_key
        file_size file_hash signed notarized platform_arch)])]) (!putFails) := by
  rcases hf with rfl | rfl | rfl <;>
    simp [update_metadata_json, freshShell, Json.setKey, Json.getKey, assocSet, assocGet]

/-- On a well-shaped parsed prior manifest the merge returns normally, with
the three dict writes expressed through `assocSet`. -/
theorem update_metadata_json_wf (kvs dl : List (String × Json))
    (hdl : assocGet kvs "downloads" = some (.obj dl))
    (endpoint bucket version platform_arch latest_key : String) (file_size : Nat)
    (file_hash : String) (signed notarized : Bool) (dtShell dtUpd : PyDatetime)
    (putFails : Bool) :
    update_metadata_json (.parsed (.obj kvs)) endpoint bucket version platform_arch
      latest_key file_size file_hash signed notarized dtShell dtUpd putFails =
    .done (.obj (assocSet (assocSet (assocSet kvs "version" (.str version))
        "release_date" (.str (buildDate dtUpd))) "downloads"
        (.obj (assocSet dl platform_arch (downloadEntry endpoint bucket latest_key
          file_size file_hash signed notarized platform_arch))))) (!putFails) := by
  have h1 : assocGet (assocSet (assocSet kvs "version" (Json.str version))
      "release_date" (Json.str (buildDate dtUpd))) "downloads" = some (.obj dl) := by
    rw [assocGet_assocSet_ne (by decide), assocGet_assocSet_ne (by decide), hdl]
  simp [update_metadata_json, Json.setKey, Json.getKey, h1]

/-- Folding the hash state over the `n`-byte chunks of a sequence is the
same as one update with the whole sequence. -/
theorem foldl_chunks {σ : Type} (H : HashSpec σ) (n : Nat) (hn : 0 < n) :
    ∀ (l : List Nat) (s : σ), (chunks n l).foldl H.upd s = H.upd s l := by
  have main : ∀ (fuel : Nat) (l : List Nat), l.length ≤ fuel → ∀ s : σ,
      (chunks n l).foldl H.upd s = H.upd s l := by
    intro fuel
    induction fuel with
    | zero =>
      intro l hl s
      have : l = [] := List.length_eq_zero.mp (Nat.le_zero.mp hl)
      subst this
      rw [chunks]
      simp [H.upd_nil]
    | succ fuel ih =>
      intro l hl s
      rcases hl0 : l with _ | ⟨x, xs⟩
      · rw [chunks]
        simp [H.upd_nil]
      · rw [chunks]
        have hne : ¬((x :: xs : List Nat) = [] ∨ n = 0) := by
          rintro (h | h)
          · exact List.cons_ne_nil x xs h
          · omega
        rw [dif_neg hne]
        simp only [List.foldl_cons]
        have hdrop : ((x :: xs : List Nat).drop n).length ≤ fuel := by
          have : (x :: xs : List Nat).length ≤ fuel + 1 := by
            rw [← hl0]; exact hl
          simp only [List.length_drop]
          omega
        rw [ih _ hdrop, ← H.upd_append, List.take_append_drop]
  intro l s
  exact main l.length l (Nat.le_refl _) s

/-- A decimal digit character is never a dot. -/
theorem digitChar_ne_dot (n : Nat) : digitChar n ≠ '.' := by
  have h : n % 10 = 0 ∨ n % 10 = 1 ∨ n % 10 = 2 ∨ n % 10 = 3 ∨ n % 10 = 4 ∨
      n % 10 = 5 ∨ n % 10 = 6 ∨ n % 10 = 7 ∨ n % 10 = 8 ∨ n % 10 = 9 := by omega
  unfold digitChar
  rcases h with h | h | h | h | h | h | h | h | h | h <;> rw [h] <;> decide

theorem char_toNat_ofNat {n : Nat} (h : n.isValidChar) : (Char.ofNat n).toNat = n := by
  unfold Char.ofNat
  rw [dif_pos h]
  rfl

/-- ASCII lowering maps only the dot to the dot. -/
theorem toLower_eq_dot {c : Char} (h : c.toLower = '.') : c = '.' := by
  unfold Char.toLower at h
  dsimp only at h
  by_cases hc : c.toNat ≥ 65 ∧ c.toNat ≤ 90
  · exfalso
    rw [if_pos hc] at h
    have hv : (c.toNat + 32).isValidChar := Or.inl (by omega)
    have h2 := congrArg Char.toNat h
    rw [char_toNat_ofNat hv] at h2
    have h46 : ('.' : Char).toNat = 46 := by decide
    omega
  · rw [if_neg hc] at h
    exact h

/-- A successful `sfxAux` result is a dot followed by dot-free characters. -/
theorem sfxAux_shape : ∀ (r acc cs : List Char), '.' ∉ acc → sfxAux r acc = some cs →
    ∃ tl, cs = '.' :: tl ∧ '.' ∉ tl := by
  intro r
  induction r with
  | nil =>
    intro acc cs _ hs
    simp [sfxAux] at hs
  | cons c rest ih =>
    intro acc cs hacc hs
    by_cases hc : c = '.'
    · subst hc
      rw [sfxAux, if_pos rfl] at hs
      split at hs
      · exact absurd hs (by simp)
      · have hcs : cs = '.' :: acc := by
          injection hs with hh
          exact hh.symm
        exact ⟨acc, hcs, hacc⟩
    · rw [sfxAux, if_neg hc] at hs
      have hacc' : '.' ∉ c :: acc := by
        intro hm
        rcases List.mem_cons.mp hm with hm | hm
        · exact hc hm.symm
        · exact hacc hm
      exact ih (c :: acc) cs hacc' hs

/-- The computed suffix is empty or a dot followed by a dot-free tail. -/
theorem pathSuffix_shape (f : String) :
    pathSuffix f = "" ∨ ∃ tl, (pathSuffix f).data = '.' :: tl ∧ '.' ∉ tl := by
  unfold pathSuffix
  rcases hs : sfxAux f.data.reverse [] with _ | cs
  · exact Or.inl rfl
  · obtain ⟨tl, htl, hnd⟩ := sfxAux_shape f.data.reverse [] cs (by simp) hs
    exact Or.inr ⟨tl, by rw [htl], hnd⟩

/-- No filename has `".tar.gz"` as its lowered final suffix: the suffix has
no dot after its leading one. -/
theorem strLower_pathSuffix_ne_targz (f : String) :
    strLower (pathSuffix f) ≠ ".tar.gz" := by
  intro h
  have hdata : (pathSuffix f).data.map Char.toLower = ".tar.gz".data :=
    congrArg String.data h
  rcases pathSuffix_shape f with h0 | ⟨tl, htl, hnd⟩
  · rw [h0] at hdata
    exact absurd hdata (by decide)
  · rw [htl] at hdata
    simp only [List.map_cons] at hdata
    have hdd : ('.' : Char).toLower = '.' := by decide
    rw [hdd] at hdata
    have htail : tl.map Char.toLower = ['t', 'a', 'r', '.', 'g', 'z'] := by
      have h2 := congrArg List.tail hdata
      simpa using h2
    have hmem : ('.' : Char) ∈ tl.map Char.toLower := by
      rw [htail]
      decide
    obtain ⟨c, hcmem, hcl⟩ := List.mem_map.mp hmem
    exact hnd (toLower_eq_dot hcl ▸ hcmem)

theorem sfxAux_zg (l : List Char) :
    sfxAux ('z' :: 'g' :: '.' :: 'r' :: l) [] = some ['.', 'g', 'z'] := by
  rw [sfxAux, if_neg (by decide), sfxAux, if_neg (by decide), sfxAux, if_pos rfl]
  simp

/-- Every name ending in `".tar.gz"` has final suffix `".gz"`. -/
theorem pathSuffix_append_targz (p : String) : pathSuffix (p ++ ".tar.gz") = ".gz" := by
  unfold pathSuffix
  rw [String.data_append]
  have h1 : (".tar.gz" : String).data = ['.', 't', 'a', 'r', '.', 'g', 'z'] := rfl
  rw [h1, List.reverse_append]
  have h2 : (['.', 't', 'a', 'r', '.', 'g', 'z'] : List Char).reverse =
      ['z', 'g', '.', 'r', 'a', 't', '.'] := rfl
  rw [h2]
  have h3 : (['z', 'g', '.', 'r', 'a', 't', '.'] : List Char) ++ p.data.reverse =
      'z' :: 'g' :: '.' :: 'r' :: (['a', 't', '.'] ++ p.data.reverse) := rfl
  rw [h3, sfxAux_zg]

/-- On a well-shaped fetch outcome the merge never raises. -/
theorem update_done_of_shapeOk (fetch : FetchOutcome) (hs : shapeOk fetch)
    (endpoint bucket version platform_arch latest_key : String) (file_size : Nat)
    (file_hash : String) (signed notarized : Bool) (dtShell dtUpd : PyDatetime)
    (putFails : Bool) :
    ∃ m, update_metadata_json fetch endpoint bucket version platform_arch latest_key
      file_size file_hash signed notarized dtShell dtUpd putFails =
        .done m (!putFails) := by
  cases fetch with
  | noSuchKey =>
    exact ⟨_, update_metadata_json_fresh _ (Or.inl rfl) endpoint bucket version
      platform_arch latest_key file_size file_hash signed notarized dtShell dtUpd putFails⟩
  | fetchFailed =>
    exact ⟨_, update_metadata_json_fresh _ (Or.inr (Or.inl rfl)) endpoint bucket version
      platform_arch latest_key file_size file_hash signed notarized dtShell dtUpd putFails⟩
  | parseFailed =>
    exact ⟨_, update_metadata_json_fresh _ (Or.inr (Or.inr rfl)) endpoint bucket version
      platform_arch latest_key file_size file_hash signed notarized dtShell dtUpd putFails⟩
  | parsed j =>
    obtain ⟨kvs, dl, rfl, hdl⟩ := hs
    exact ⟨_, update_metadata_json_wf kvs dl hdl endpoint bucket version platform_arch
      latest_key file_size file_hash signed notarized dtShell dtUpd putFails⟩

/-! ## Claim theorems -/

/-- C1: for every well-formed prior manifest, the merge unconditionally
overwrites the top-level `version` and `release_date`, preserves every
prior `downloads` entry under keys other than the current
platform-architecture identifier, and stores
`{url, size, sha256, signed}` — plus `notarized` exactly when the platform
is macos — under the current identifier. -/
theorem manifest_merge_additive (kvs dl : List (String × Json))
    (hwf : assocGet kvs "downloads" = some (.obj dl))
    (endpoint bucket version latest_key file_hash : String) (file_size : Nat)
    (signed notarized : Bool) (p : Platform) (a : Arch) (dtShell dtUpd : PyDatetime) :
    ∃ kvs', update_metadata_json (.parsed (.obj kvs)) endpoint bucket version
        (platformArch p a) latest_key file_size file_hash signed notarized
        dtShell dtUpd false = .done (.obj kvs') true ∧
      assocGet kvs' "version" = some (.str version) ∧
      assocGet kvs' "release_date" = some (.str (buildDate dtUpd)) ∧
      ∃ dl', assocGet kvs' "downloads" = some (.obj dl') ∧
        assocGet dl' (platformArch p a) = some (.obj
          ([("url", .str (endpoint ++ "/" ++ bucket ++ "/" ++ latest_key)),
            ("size", .num file_size), ("sha256", .str file_hash),
            ("signed", .bool signed)] ++
          (if p = Platform.macos then [("notarized", .bool notarized)] else []))) ∧
        ∀ k, k ≠ platformArch p a → assocGet dl' k = assocGet dl k := by
  refine ⟨_, update_metadata_json_wf kvs dl hwf endpoint bucket version
    (platformArch p a) latest_key file_size file_hash signed notarized
    dtShell dtUpd false, ?_, ?_, ?_⟩
  · rw [assocGet_assocSet_ne (by decide), assocGet_assocSet_ne (by decide)]
    exact assocGet_assocSet_self
  · rw [assocGet_assocSet_ne (by decide)]
    exact assocGet_assocSet_self
  · refine ⟨_, assocGet_assocSet_self, ?_, ?_⟩
    · rw [assocGet_assocSet_self]
      by_cases hp : p = Platform.macos <;>
        simp [downloadEntry, containsSubstr_macos_platformArch, hp]
    · intro k hk
      exact assocGet_assocSet_ne hk

/-- The `downloads` map of the prior manifest in the worked example of the
specification (§8): a single `windows-x64` entry. -/
def examplePriorDownloads : List (String × Json) :=
  [("windows-x64", .obj [("url", .str "u1"), ("size", .num 10),
    ("sha256", .str "h1"), ("signed", .bool true)])]

/-- The prior manifest of the worked example of the specification (§8). -/
def examplePrior : List (String × Json) :=
  [("version", .str "1.0.0"), ("release_date", .str "t0"),
   ("downloads", .obj examplePriorDownloads)]

/-- Witness for C1 at the specification's worked example: prior manifest
holding `windows-x64`, update for `macos-arm64` with version `1.1.0`,
size 20, hash `h2`, signed false, notarized true. -/
theorem manifest_merge_additive_witness :
    assocGet examplePrior "downloads" = some (.obj examplePriorDownloads) ∧
    (∃ kvs', update_metadata_json (.parsed (.obj examplePrior)) "ep" "bk" "1.1.0"
        (platformArch Platform.macos Arch.arm64) "lk" 20 "h2" false true
        ⟨2026, 10, 12, 0, 0, 0, 0⟩ ⟨2026, 10, 12, 0, 0, 0, 0⟩ false =
          .done (.obj kvs') true ∧
      assocGet kvs' "version" = some (.str "1.1.0") ∧
      assocGet kvs' "release_date" =
        some (.str (buildDate ⟨2026, 10, 12, 0, 0, 0, 0⟩)) ∧
      ∃ dl', assocGet kvs' "downloads" = some (.obj dl') ∧
        assocGet dl' (platformArch Platform.macos Arch.arm64) = some (.obj
          ([("url", .str ("ep" ++ "/" ++ "bk" ++ "/" ++ "lk")),
            ("size", .num 20), ("sha256", .str "h2"),
            ("signed", .bool false)] ++
          (if Platform.macos = Platform.macos then [("notarized", .bool true)]
           else []))) ∧
        ∀ k, k ≠ platformArch Platform.macos Arch.arm64 →
          assocGet dl' k = assocGet examplePriorDownloads k) :=
  ⟨rfl, manifest_merge_additive examplePrior examplePriorDownloads rfl
    "ep" "bk" "1.1.0" "lk" "h2" 20 false true Platform.macos Arch.arm64
    ⟨2026, 10, 12, 0, 0, 0, 0⟩ ⟨2026, 10, 12, 0, 0, 0, 0⟩⟩

/-- C2 counterexample: a fetched body that is valid JSON but not of the
Release Manifest shape — here the empty JSON object, which lacks the
`downloads` key — does not fall back to the fresh shell: the merge raises
(`KeyError` on `"downloads"`) and the exception escapes
`update_metadata_json` into the caller. -/
theorem manifest_malformed_body_crashes :
    update_metadata_json (.parsed (.obj [])) "ep" "bk" "1.1.0" "macos-arm64" "lk"
      20 "h2" false true ⟨2026, 10, 12, 0, 0, 0, 0⟩ ⟨2026, 10, 12, 0, 0, 0, 0⟩
      false = .crash := rfl

/-- C2 (amended): when the manifest object is absent, the fetch fails for
any reason, or the fetched body fails JSON parsing, the update proceeds
from a fresh shell containing only the current run's data, without
crashing.  A body that parses as JSON but lacks the manifest shape is not
covered by the fallback: there the merge raises (see the
counterexample). -/
theorem manifest_fallback_fresh (fetch : FetchOutcome)
    (hf : fetch = .noSuchKey ∨ fetch = .fetchFailed ∨ fetch = .parseFailed)
    (endpoint bucket version latest_key file_hash : String) (file_size : Nat)
    (signed notarized : Bool) (p : Platform) (a : Arch) (dtShell dtUpd : PyDatetime)
    (putFails : Bool) :
    update_metadata_json fetch endpoint bucket version (platformArch p a) latest_key
      file_size file_hash signed notarized dtShell dtUpd putFails =
    .done (.obj [("version", .str version),
      ("release_date", .str (buildDate dtUpd)),
      ("downloads", .obj [(platformArch p a,
        .obj ([("url", .str (endpoint ++ "/" ++ bucket ++ "/" ++ latest_key)),
          ("size", .num file_size), ("sha256", .str file_hash),
          ("signed", .bool signed)] ++
          (if p = Platform.macos then [("notarized", .bool notarized)]
           else [])))])]) (!putFails) := by
  rw [update_metadata_json_fresh fetch hf endpoint bucket version (platformArch p a)
    latest_key file_size file_hash signed notarized dtShell dtUpd putFails]
  by_cases hp : p = Platform.macos <;>
    simp [downloadEntry, containsSubstr_macos_platformArch, hp]

/-- Witness for C2 (amended) at a concrete parse failure. -/
theorem manifest_fallback_fresh_witness :
    ((FetchOutcome.parseFailed = FetchOutcome.noSuchKey ∨
      FetchOutcome.parseFailed = FetchOutcome.fetchFailed ∨
      FetchOutcome.parseFailed = FetchOutcome.parseFailed) : Prop) ∧
    update_metadata_json .parseFailed "ep" "bk" "1.1.0"
      (platformArch Platform.macos Arch.arm64) "lk" 20 "h2" false true
      ⟨2026, 10, 12, 0, 0, 0, 0⟩ ⟨2026, 10, 12, 0, 0, 0, 0⟩ false =
    .done (.obj [("version", .str "1.1.0"),
      ("release_date", .str (buildDate ⟨2026, 10, 12, 0, 0, 0, 0⟩)),
      ("downloads", .obj [(platformArch Platform.macos Arch.arm64,
        .obj ([("url", .str ("ep" ++ "/" ++ "bk" ++ "/" ++ "lk")),
          ("size", .num 20), ("sha256", .str "h2"),
          ("signed", .bool false)] ++
          (if Platform.macos = Platform.macos then [("notarized", .bool true)]
           else [])))])]) (!false) :=
  ⟨Or.inr (Or.inr rfl),
    manifest_fallback_fresh .parseFailed (Or.inr (Or.inr rfl)) "ep" "bk" "1.1.0"
      "lk" "h2" 20 false true Platform.macos Arch.arm64
      ⟨2026, 10, 12, 0, 0, 0, 0⟩ ⟨2026, 10, 12, 0, 0, 0, 0⟩ false⟩

/-- Characterization of `upload_to_r2` once environment and file checks
pass: used to settle the flow claims. -/
theorem upload_to_r2_trace (w : World) (a : Args) (f : Faults)
    (hcreds : (truthy w.env.access_key && truthy w.env.secret_key &&
      truthy w.env.endpoint && truthy w.env.bucket) = true)
    (hfile : w.fileExists = true) :
    upload_to_r2 w a f =
      (let pa := platformArch a.platform a.arch
      let fn := baseName a.file_path
      let ct := get_content_type fn
      let md := objectMetadata a w
      let c1 := S3Call.uploadFile (versionedKey a.version pa fn) ct md
      let c2 := S3Call.uploadFile (latestKey pa fn) ct md
      if f.uploadVersionedFails then ⟨false, true, [c1]⟩
      else if f.uploadLatestFails then ⟨false, true, [c1, c2]⟩
      else
        match update_metadata_json f.fetch (w.env.endpoint.getD "")
            (w.env.bucket.getD "") a.version pa (latestKey pa fn) w.fileSize
            w.fileHash a.signed a.notarized w.dtShell w.dtUpd f.putManifestFails with
        | .crash => ⟨false, true, [c1, c2, .getObject metadataKey]⟩
        | .done _ _ =>
          ⟨true, true, [c1, c2, .getObject metadataKey, .putObject metadataKey]⟩) := by
  unfold upload_to_r2
  rw [hcreds, hfile]
  rw [if_neg (by simp), if_neg (by simp)]

/-- C3: once both artifact uploads have succeeded, a manifest-update
failure — fetch failure, parse failure, or write failure — leaves the
overall result successful with exit code 0.  The `shapeOk` hypothesis
restricts to fetched bodies that, when they parse as JSON, have the
manifest shape; on other bodies the merge raises and the operation fails,
which is the C2 divergence, not one of the three failure kinds named
here. -/
theorem manifest_failure_nonfatal (w : World) (a : Args) (f : Faults)
    (hcreds : (truthy w.env.access_key && truthy w.env.secret_key &&
      truthy w.env.endpoint && truthy w.env.bucket) = true)
    (hfile : w.fileExists = true)
    (hv : f.uploadVersionedFails = false) (hl : f.uploadLatestFails = false)
    (_hfail : f.fetch = .fetchFailed ∨ f.fetch = .parseFailed ∨
      f.putManifestFails = true)
    (hshape : shapeOk f.fetch) :
    (upload_to_r2 w a f).success = true ∧ exitCode (upload_to_r2 w a f) = 0 := by
  obtain ⟨m, hm⟩ := update_done_of_shapeOk f.fetch hshape (w.env.endpoint.getD "")
    (w.env.bucket.getD "") a.version (platformArch a.platform a.arch)
    (latestKey (platformArch a.platform a.arch) (baseName a.file_path))
    w.fileSize w.fileHash a.signed a.notarized w.dtShell w.dtUpd f.putManifestFails
  rw [upload_to_r2_trace w a f hcreds hfile]
  simp [hv, hl, hm, exitCode]

/-- C4: a missing environment value or a missing file yields the failure
result (exit code 1) with the client never constructed and an empty call
trace. -/
theorem precondition_failure_no_client_calls (w : World) (a : Args) (f : Faults)
    (h : truthy w.env.access_key = false ∨ truthy w.env.secret_key = false ∨
      truthy w.env.endpoint = false ∨ truthy w.env.bucket = false ∨
      w.fileExists = false) :
    upload_to_r2 w a f = ⟨false, false, []⟩ ∧ exitCode (upload_to_r2 w a f) = 1 := by
  have hres : upload_to_r2 w a f = ⟨false, false, []⟩ := by
    unfold upload_to_r2
    cases hb : (truthy w.env.access_key && truthy w.env.secret_key &&
        truthy w.env.endpoint && truthy w.env.bucket) with
    | false => simp
    | true =>
      have hall := hb
      simp only [Bool.and_eq_true] at hall
      rcases h with h | h | h | h | h
      · rw [h] at hall
        simp at hall
      · rw [h] at hall
        simp at hall
      · rw [h] at hall
        simp at hall
      · rw [h] at hall
        simp at hall
      · simp [hb, h]
  refine ⟨hres, ?_⟩
  rw [hres]
  rfl

/-- C5: the manifest read-modify-write is attempted only after both
artifact uploads succeed, in the order versioned upload, latest upload,
manifest get, manifest put; a failed artifact upload ends the run with
failure and no manifest call. -/
theorem uploads_before_manifest (w : World) (a : Args) (f : Faults)
    (hcreds : (truthy w.env.access_key && truthy w.env.secret_key &&
      truthy w.env.endpoint && truthy w.env.bucket) = true)
    (hfile : w.fileExists = true) :
    (f.uploadVersionedFails = true → upload_to_r2 w a f = ⟨false, true,
      [S3Call.uploadFile
        (versionedKey a.version (platformArch a.platform a.arch) (baseName a.file_path))
        (get_content_type (baseName a.file_path)) (objectMetadata a w)]⟩) ∧
    (f.uploadVersionedFails = false → f.uploadLatestFails = true →
      upload_to_r2 w a f = ⟨false, true,
      [S3Call.uploadFile
        (versionedKey a.version (platformArch a.platform a.arch) (baseName a.file_path))
        (get_content_type (baseName a.file_path)) (objectMetadata a w),
       S3Call.uploadFile
        (latestKey (platformArch a.platform a.arch) (baseName a.file_path))
        (get_content_type (baseName a.file_path)) (objectMetadata a w)]⟩) ∧
    (f.uploadVersionedFails = false → f.uploadLatestFails = false →
      (upload_to_r2 w a f).calls =
        [S3Call.uploadFile
          (versionedKey a.version (platformArch a.platform a.arch) (baseName a.file_path))
          (get_content_type (baseName a.file_path)) (objectMetadata a w),
         S3Call.uploadFile
          (latestKey (platformArch a.platform a.arch) (baseName a.file_path))
          (get_content_type (baseName a.file_path)) (objectMetadata a w),
         S3Call.getObject metadataKey, S3Call.putObject metadataKey] ∨
      (upload_to_r2 w a f).calls =
        [S3Call.uploadFile
          (versionedKey a.version (platformArch a.platform a.arch) (baseName a.file_path))
          (get_content_type (baseName a.file_path)) (objectMetadata a w),
         S3Call.uploadFile
          (latestKey (platformArch a.platform a.arch) (baseName a.file_path))
          (get_content_type (baseName a.file_path)) (objectMetadata a w),
         S3Call.getObject metadataKey]) := by
  rw [upload_to_r2_trace w a f hcreds hfile]
  refine ⟨?_, ?_, ?_⟩
  · intro hv
    simp [hv]
  · intro hv hl
    simp [hv, hl]
  · intro hv hl
    cases hu : update_metadata_json f.fetch (w.env.endpoint.getD "")
        (w.env.bucket.getD "") a.version (platformArch a.platform a.arch)
        (latestKey (platformArch a.platform a.arch) (baseName a.file_path))
        w.fileSize w.fileHash a.signed a.notarized w.dtShell w.dtUpd
        f.putManifestFails with
    | done m wr =>
      left
      simp [hv, hl, hu]
    | crash =>
      right
      simp [hv, hl, hu]

/-- C6: the two keys the run uploads to are exactly the deterministic
templates `releases/v{version}/{platform}-{arch}/{filename}` and
`releases/latest/{platform}-{arch}/Ami-latest-{platform}-{arch}{ext}`,
pure functions of version, platform, architecture and filename — no
randomness and no timestamp enters either key. -/
theorem object_keys_deterministic (w : World) (a : Args) (f : Faults)
    (hcreds : (truthy w.env.access_key && truthy w.env.secret_key &&
      truthy w.env.endpoint && truthy w.env.bucket) = true)
    (hfile : w.fileExists = true)
    (hv : f.uploadVersionedFails = false) (hl : f.uploadLatestFails = false) :
    (upload_to_r2 w a f).calls.take 2 =
      [S3Call.uploadFile
        ("releases/v" ++ a.version ++ "/" ++ platformArch a.platform a.arch ++ "/" ++
          baseName a.file_path)
        (get_content_type (baseName a.file_path)) (objectMetadata a w),
       S3Call.uploadFile
        ("releases/latest/" ++ platformArch a.platform a.arch ++ "/" ++
          ("Ami-latest-" ++ platformArch a.platform a.arch ++
            pathSuffix (baseName a.file_path)))
        (get_content_type (baseName a.file_path)) (objectMetadata a w)] := by
  rw [upload_to_r2_trace w a f hcreds hfile]
  cases hu : update_metadata_json f.fetch (w.env.endpoint.getD "")
      (w.env.bucket.getD "") a.version (platformArch a.platform a.arch)
      (latestKey (platformArch a.platform a.arch) (baseName a.file_path))
      w.fileSize w.fileHash a.signed a.notarized w.dtShell w.dtUpd
      f.putManifestFails with
  | done m wr =>
    simp only [hv, hl, hu]
    simp [versionedKey, latestKey, latestFilename]
  | crash =>
    simp only [hv, hl, hu]
    simp [versionedKey, latestKey, latestFilename]

/-- Fully-populated environment configuration for witnesses. -/
def exampleEnv : EnvCfg :=
  ⟨some "AK", some "SK", some "https://ep", some "bk"⟩

/-- A concrete instant for witnesses. -/
def exampleDt : PyDatetime := ⟨2026, 10, 12, 0, 0, 0, 0⟩

/-- A concrete world with an existing file for witnesses. -/
def exampleWorld : World :=
  ⟨exampleEnv, true, 20, "h2", exampleDt, exampleDt, exampleDt⟩

/-- A concrete invocation for witnesses. -/
def exampleArgs : Args :=
  ⟨"dist/Ami-1.1.0-macos-arm64.dmg", "1.1.0", .macos, .arm64, false, true, none⟩

/-- Witness for C3: a concrete run whose manifest fetch fails still exits 0. -/
theorem manifest_failure_nonfatal_witness :
    (upload_to_r2 exampleWorld exampleArgs ⟨false, false, .fetchFailed, false⟩).success =
      true ∧
    exitCode (upload_to_r2 exampleWorld exampleArgs ⟨false, false, .fetchFailed, false⟩) =
      0 :=
  manifest_failure_nonfatal exampleWorld exampleArgs ⟨false, false, .fetchFailed, false⟩
    (by decide) rfl rfl rfl (Or.inl rfl) trivial

/-- Witness for C4: a concrete run with the access key unset makes no
client call and exits 1. -/
theorem precondition_failure_no_client_calls_witness :
    upload_to_r2 ⟨⟨none, some "SK", some "https://ep", some "bk"⟩, true, 20, "h2",
        exampleDt, exampleDt, exampleDt⟩ exampleArgs ⟨false, false, .noSuchKey, false⟩ =
      ⟨false, false, []⟩ ∧
    exitCode (upload_to_r2 ⟨⟨none, some "SK", some "https://ep", some "bk"⟩, true, 20,
        "h2", exampleDt, exampleDt, exampleDt⟩ exampleArgs
      ⟨false, false, .noSuchKey, false⟩) = 1 :=
  precondition_failure_no_client_calls _ exampleArgs _ (Or.inl rfl)

/-- Witness for C5 at a concrete run. -/
theorem uploads_before_manifest_witness :
    (((⟨true, false, .noSuchKey, false⟩ : Faults).uploadVersionedFails = true →
      upload_to_r2 exampleWorld exampleArgs ⟨true, false, .noSuchKey, false⟩ =
        ⟨false, true,
        [S3Call.uploadFile
          (versionedKey exampleArgs.version
            (platformArch exampleArgs.platform exampleArgs.arch)
            (baseName exampleArgs.file_path))
          (get_content_type (baseName exampleArgs.file_path))
          (objectMetadata exampleArgs exampleWorld)]⟩) ∧
    ((⟨true, false, .noSuchKey, false⟩ : Faults).uploadVersionedFails = false →
      (⟨true, false, .noSuchKey, false⟩ : Faults).uploadLatestFails = true →
      upload_to_r2 exampleWorld exampleArgs ⟨true, false, .noSuchKey, false⟩ =
        ⟨false, true,
        [S3Call.uploadFile
          (versionedKey exampleArgs.version
            (platformArch exampleArgs.platform exampleArgs.arch)
            (baseName exampleArgs.file_path))
          (get_content_type (baseName exampleArgs.file_path))
          (objectMetadata exampleArgs exampleWorld),
         S3Call.uploadFile
          (latestKey (platformArch exampleArgs.platform exampleArgs.arch)
            (baseName exampleArgs.file_path))
          (get_content_type (baseName exampleArgs.file_path))
          (objectMetadata exampleArgs exampleWorld)]⟩) ∧
    ((⟨true, false, .noSuchKey, false⟩ : Faults).uploadVersionedFails = false →
      (⟨true, false, .noSuchKey, false⟩ : Faults).uploadLatestFails = false →
      (upload_to_r2 exampleWorld exampleArgs ⟨true, false, .noSuchKey, false⟩).calls =
        [S3Call.uploadFile
          (versionedKey exampleArgs.version
            (platformArch exampleArgs.platform exampleArgs.arch)
            (baseName exampleArgs.file_path))
          (get_content_type (baseName exampleArgs.file_path))
          (objectMetadata exampleArgs exampleWorld),
         S3Call.uploadFile
          (latestKey (platformArch exampleArgs.platform exampleArgs.arch)
            (baseName exampleArgs.file_path))
          (get_content_type (baseName exampleArgs.file_path))
          (objectMetadata exampleArgs exampleWorld),
         S3Call.getObject metadataKey, S3Call.putObject metadataKey] ∨
      (upload_to_r2 exampleWorld exampleArgs ⟨true, false, .noSuchKey, false⟩).calls =
        [S3Call.uploadFile
          (versionedKey exampleArgs.version
            (platformArch exampleArgs.platform exampleArgs.arch)
            (baseName exampleArgs.file_path))
          (get_content_type (baseName exampleArgs.file_path))
          (objectMetadata exampleArgs exampleWorld),
         S3Call.uploadFile
          (latestKey (platformArch exampleArgs.platform exampleArgs.arch)
            (baseName exampleArgs.file_path))
          (get_content_type (baseName exampleArgs.file_path))
          (objectMetadata exampleArgs exampleWorld),
         S3Call.getObject metadataKey])) :=
  uploads_before_manifest exampleWorld exampleArgs ⟨true, false, .noSuchKey, false⟩
    (by decide) rfl

/-- Witness for C6 at a concrete fault-free run. -/
theorem object_keys_deterministic_witness :
    (upload_to_r2 exampleWorld exampleArgs ⟨false, false, .noSuchKey, false⟩).calls.take 2 =
      [S3Call.uploadFile
        ("releases/v" ++ exampleArgs.version ++ "/" ++
          platformArch exampleArgs.platform exampleArgs.arch ++ "/" ++
          baseName exampleArgs.file_path)
        (get_content_type (baseName exampleArgs.file_path))
        (objectMetadata exampleArgs exampleWorld),
       S3Call.uploadFile
        ("releases/latest/" ++ platformArch exampleArgs.platform exampleArgs.arch ++
          "/" ++ ("Ami-latest-" ++ platformArch exampleArgs.platform exampleArgs.arch ++
            pathSuffix (baseName exampleArgs.file_path)))
        (get_content_type (baseName exampleArgs.file_path))
        (objectMetadata exampleArgs exampleWorld)] :=
  object_keys_deterministic exampleWorld exampleArgs ⟨false, false, .noSuchKey, false⟩
    (by decide) rfl rfl rfl

/-- C7: folding the hash state over fixed-size 4096-byte chunks of the
byte stream yields the same digest as hashing the whole sequence at once,
for every implementation of the incremental-hash interface; both sides are
pure functions of the bytes, so repeated runs on the same bytes agree. -/
theorem sha256_chunked_eq_whole {σ : Type} (H : HashSpec σ) (content : List Nat) :
    calculate_sha256 H content = hashWhole H content := by
  unfold calculate_sha256 hashWhole
  rw [foldl_chunks H 4096 (by omega)]

/-- A concrete instance of the incremental-hash interface, for the C7
witness: the state is the accumulated byte list. -/
def concatHashSpec : HashSpec (List Nat) where
  init := []
  upd := fun s l => s ++ l
  hexdigest := fun s => toString s.length
  upd_append := by
    intro s a b
    simp
  upd_nil := by
    intro s
    simp

/-- Witness for C7 at a concrete hash instance and byte list. -/
theorem sha256_chunked_eq_whole_witness :
    calculate_sha256 concatHashSpec [1, 2, 3] = hashWhole concatHashSpec [1, 2, 3] :=
  sha256_chunked_eq_whole concatHashSpec [1, 2, 3]

/-- C8: the content type is a pure function of the lowered final file
extension via the fixed table — `.dmg`, `.exe`, `.zip` map to their listed
types, any extension outside the table falls back to
`application/octet-stream`, and filenames with equal lowered extensions
always resolve identically (no content sniffing). -/
theorem content_type_resolution :
    (∀ f, strLower (pathSuffix f) = ".dmg" →
      get_content_type f = "application/x-apple-diskimage") ∧
    (∀ f, strLower (pathSuffix f) = ".exe" →
      get_content_type f = "application/x-msdownload") ∧
    (∀ f, strLower (pathSuffix f) = ".zip" →
      get_content_type f = "application/zip") ∧
    (∀ f, strLower (pathSuffix f) ∉ content_types.map Prod.fst →
      get_content_type f = "application/octet-stream") ∧
    (∀ f g, strLower (pathSuffix f) = strLower (pathSuffix g) →
      get_content_type f = get_content_type g) := by
  refine ⟨?_, ?_, ?_, ?_, ?_⟩
  · intro f h
    simp [get_content_type, h, content_types, assocGet]
  · intro f h
    simp [get_content_type, h, content_types, assocGet]
  · intro f h
    simp [get_content_type, h, content_types, assocGet]
  · intro f h
    unfold get_content_type
    dsimp only
    rw [assocGet_eq_none h]
    rfl
  · intro f g h
    unfold get_content_type
    dsimp only
    rw [h]

/-- Witness for C8 at the four concrete filenames of the claim and a pair
with equal extensions. -/
theorem content_type_resolution_witness :
    (strLower (pathSuffix "Ami.dmg") = ".dmg" ∧
      get_content_type "Ami.dmg" = "application/x-apple-diskimage") ∧
    (strLower (pathSuffix "setup.exe") = ".exe" ∧
      get_content_type "setup.exe" = "application/x-msdownload") ∧
    (strLower (pathSuffix "app.zip") = ".zip" ∧
      get_content_type "app.zip" = "application/zip") ∧
    (strLower (pathSuffix "blob.xyz") ∉ content_types.map Prod.fst ∧
      get_content_type "blob.xyz" = "application/octet-stream") ∧
    (strLower (pathSuffix "a.DMG") = strLower (pathSuffix "b.dmg") ∧
      get_content_type "a.DMG" = get_content_type "b.dmg") :=
  ⟨⟨by decide, content_type_resolution.1 "Ami.dmg" (by decide)⟩,
   ⟨by decide, content_type_resolution.2.1 "setup.exe" (by decide)⟩,
   ⟨by decide, content_type_resolution.2.2.1 "app.zip" (by decide)⟩,
   ⟨by decide, content_type_resolution.2.2.2.1 "blob.xyz" (by decide)⟩,
   ⟨by decide, content_type_resolution.2.2.2.2 "a.DMG" "b.dmg" (by decide)⟩⟩

theorem dot_not_mem_pad2 (n : Nat) : '.' ∉ (pad2 n).data := by
  intro h
  have h2 : '.' ∈ [digitChar (n / 10), digitChar n] := h
  simp only [List.mem_cons, List.not_mem_nil, or_false] at h2
  rcases h2 with h2 | h2 <;> exact digitChar_ne_dot _ h2.symm

theorem dot_not_mem_pad4 (n : Nat) : '.' ∉ (pad4 n).data := by
  intro h
  have h2 : '.' ∈ [digitChar (n / 1000), digitChar (n / 100),
      digitChar (n / 10), digitChar n] := h
  simp only [List.mem_cons, List.not_mem_nil, or_false] at h2
  rcases h2 with h2 | h2 | h2 | h2 <;> exact digitChar_ne_dot _ h2.symm

theorem dot_not_mem_pad6 (n : Nat) : '.' ∉ (pad6 n).data := by
  intro h
  have h2 : '.' ∈ [digitChar (n / 100000), digitChar (n / 10000),
      digitChar (n / 1000), digitChar (n / 100), digitChar (n / 10),
      digitChar n] := h
  simp only [List.mem_cons, List.not_mem_nil, or_false] at h2
  rcases h2 with h2 | h2 | h2 | h2 | h2 | h2 <;> exact digitChar_ne_dot _ h2.symm

theorem dot_not_mem_dash : ('.' : Char) ∉ ("-" : String).data := by decide

theorem dot_not_mem_tee : ('.' : Char) ∉ ("T" : String).data := by decide

theorem dot_not_mem_colon : ('.' : Char) ∉ (":" : String).data := by decide

theorem dot_not_mem_empty : ('.' : Char) ∉ ("" : String).data := by decide

/-- C9 counterexample: at a clock instant with nonzero microseconds —
which `datetime.utcnow()` returns on almost every invocation — the build
timestamp carries a six-digit sub-second component. -/
theorem build_timestamp_subsecond_cex :
    buildDate ⟨2026, 10, 12, 3, 4, 5, 123456⟩ = "2026-10-12T03:04:05.123456Z" ∧
    '.' ∈ (buildDate ⟨2026, 10, 12, 3, 4, 5, 123456⟩).data := by
  constructor
  · decide
  · decide

/-- C9 (amended): the build timestamp always ends in `Z`, and it carries a
sub-second component (a dot followed by six microsecond digits) exactly
when the clock's microsecond field is nonzero; it is sub-second-free only
in the measure-zero case `microsecond = 0`. -/
theorem build_timestamp_format (dt : PyDatetime) :
    (buildDate dt).data.getLast? = some 'Z' ∧
    ('.' ∈ (buildDate dt).data ↔ dt.microsecond ≠ 0) := by
  constructor
  · show ((isoformat dt).data ++ ['Z']).getLast? = some 'Z'
    exact List.getLast?_concat _
  · constructor
    · intro hmem hms
      unfold buildDate isoformat at hmem
      rw [if_pos hms] at hmem
      simp only [String.data_append, List.mem_append, dot_not_mem_pad2,
        dot_not_mem_pad4, dot_not_mem_pad6, dot_not_mem_dash, dot_not_mem_tee,
        dot_not_mem_colon, dot_not_mem_empty, or_false, false_or] at hmem
      exact absurd hmem (by decide)
    · intro hne
      unfold buildDate isoformat
      rw [if_neg hne]
      simp only [String.data_append, List.mem_append]
      have hd : ('.' : Char) ∈ ("." : String).data := by decide
      tauto

/-- Witness for C9 (amended) at a concrete instant. -/
theorem build_timestamp_format_witness :
    (buildDate exampleDt).data.getLast? = some 'Z' ∧
    ('.' ∈ (buildDate exampleDt).data ↔ exampleDt.microsecond ≠ 0) :=
  build_timestamp_format exampleDt

theorem content_types_gzip_key {ext v : String}
    (hg : assocGet content_types ext = some v) (hv : v = "application/gzip") :
    ext = ".tar.gz" := by
  subst hv
  simp only [content_types, assocGet] at hg
  split_ifs at hg with h1 h2 h3 h4 h5 h6
  · simp at hg
  · simp at hg
  · simp at hg
  · simp at hg
  · exact h5.symm
  · simp at hg

/-- C10: the lookup keys only on the lowered final dot-suffix, so every
filename ending in `.tar.gz` resolves through the suffix `.gz` to the
generic binary type, and the table's `.tar.gz → application/gzip` entry is
unreachable for every filename. -/
theorem targz_entry_unreachable :
    (∀ p : String, get_content_type (p ++ ".tar.gz") = "application/octet-stream") ∧
    (∀ f : String, get_content_type f ≠ "application/gzip") := by
  constructor
  · intro p
    unfold get_content_type
    dsimp only
    rw [pathSuffix_append_targz]
    rfl
  · intro f h
    unfold get_content_type at h
    dsimp only at h
    rcases hg : assocGet content_types (strLower (pathSuffix f)) with _ | v
    · rw [hg] at h
      exact absurd h (by decide)
    · rw [hg] at h
      exact strLower_pathSuffix_ne_targz f (content_types_gzip_key hg h)

/-- Witness for C10 at concrete filenames. -/
theorem targz_entry_unreachable_witness :
    get_content_type ("x" ++ ".tar.gz") = "application/octet-stream" ∧
    get_content_type "x.tar.gz" ≠ "application/gzip" :=
  ⟨targz_entry_unreachable.1 "x", targz_entry_unreachable.2 "x.tar.gz"⟩

end UploadR2
